import Mathlib

/-!
Shallow embedding of the playlist track extraction engine of this
repository (source: src/lib/scraper.ts, function fetchPlaylistTracks,
and src/app/api/playlist/route.ts, function POST).

The browser page is modelled as an environment (PageEnv) that says, for
each render pass, which DOM rows are currently rendered and whether the
pass's evaluate step raises; navigation and the initial selector wait
are modelled as optional failures. The extraction loop, the
deduplicating accumulator and the streaming adapter are translated
statement by statement from the TypeScript source.
-/

namespace Mymumi

/-- A DOM element as seen by the extraction code: only its textContent
matters (textContent may be null, hence Option). -/
structure Elem where
  text : Option String
deriving Repr, DecidableEq

/-- One rendered tracklist row, as read by the page.evaluate callback in
fetchPlaylistTracks (scraper.ts lines 40-60): the three title selectors
of the fallback chain, the combined artist selector result list (in
document order), and the small-text span used as artist fallback. -/
structure Row where
  trackName : Option Elem
  trackLink : Option Elem
  divAuto : Option Elem
  artistElems : List Elem
  spanSmall : Option Elem
deriving Repr, DecidableEq

/-- The ScrapedTrack interface of scraper.ts: title and the already
comma-joined artists string. -/
structure ScrapedTrack where
  title : String
  artists : String
deriving Repr, DecidableEq

/-- Character-list model of lowercasing, as String.prototype.toLowerCase
acts on the characters of a string. -/
def strToLower (s : String) : String :=
  ⟨s.data.map Char.toLower⟩

/-- Whitespace removal at both ends of a character list. -/
def trimList (l : List Char) : List Char :=
  ((l.dropWhile Char.isWhitespace).reverse.dropWhile Char.isWhitespace).reverse

/-- Character-list model of String.prototype.trim. -/
def strTrim (s : String) : String :=
  ⟨trimList s.data⟩

/-- JS: el.textContent?.trim() — none when the element is absent or its
textContent is null, otherwise the trimmed text. -/
def elemText (e : Option Elem) : Option String :=
  (e.bind (fun el => el.text)).map strTrim

/-- JS: s || dflt where s : string | undefined — undefined and the empty
string both fall through to the default. -/
def jsOrDefault (s : Option String) (dflt : String) : String :=
  match s with
  | some t => if t = "" then dflt else t
  | none => dflt

/-- Title extraction (scraper.ts lines 43-46, 56): the first matching
element of the fallback chain, then textContent?.trim() with the
"Unknown Title" default. -/
def rowTitle (r : Row) : String :=
  jsOrDefault (elemText (r.trackName <|> r.trackLink <|> r.divAuto)) "Unknown Title"

/-- Artist extraction (scraper.ts lines 48-51): if the combined artist
selector matched anything, the trimmed non-empty texts
(map + filter(Boolean)); otherwise the small-span fallback with the
"Unknown Artist" default. -/
def rowArtists (r : Row) : List String :=
  if r.artistElems.length > 0 then
    ((r.artistElems.map (fun el => el.text.map strTrim)).filterMap id).filter
      (fun s => s ≠ "")
  else
    [jsOrDefault (elemText r.spanSmall) "Unknown Artist"]

/-- Helper of dedupKeepFirst: seen is the set of values already kept. -/
def dedupKeepFirstAux (seen : List String) : List String → List String
  | [] => []
  | a :: l =>
    if a ∈ seen then dedupKeepFirstAux seen l
    else a :: dedupKeepFirstAux (a :: seen) l

/-- JS: the spread of new Set(xs) — duplicates removed, first occurrence
kept, order of first occurrences preserved. -/
def dedupKeepFirst (l : List String) : List String :=
  dedupKeepFirstAux [] l

/-- The whole per-row extraction (scraper.ts lines 42-59): one
ScrapedTrack per row, artists deduplicated then joined with a comma. -/
def rowToTrack (r : Row) : ScrapedTrack :=
  { title := rowTitle r
    artists := String.intercalate ", " (dedupKeepFirst (rowArtists r)) }

/-- The insertion-ordered unique-track mapping (the JS Map allTracks):
association list in insertion order. -/
abbrev TrackMap := List (String × ScrapedTrack)

/-- Canonical key of a track (scraper.ts line 64). -/
def canonicalKey (t : ScrapedTrack) : String :=
  strToLower (t.artists ++ " - " ++ t.title)

/-- JS: allTracks.has(key). -/
def hasKey (m : TrackMap) (k : String) : Bool :=
  m.any (fun p => p.1 = k)

/-- One step of the merge (scraper.ts lines 63-68): insert the track at
the end under its canonical key unless the key is already present. -/
def mergeTrack (m : TrackMap) (t : ScrapedTrack) : TrackMap :=
  let key := canonicalKey t
  if hasKey m key then m else m ++ [(key, t)]

/-- currentTracks.forEach over the merge step. -/
def mergeTracks (m : TrackMap) (ts : List ScrapedTrack) : TrackMap :=
  ts.foldl mergeTrack m

/-- JS: Array.from(allTracks.values()) in insertion order. -/
def mapValues (m : TrackMap) : List ScrapedTrack :=
  m.map (fun p => p.2)

/-- Environment of one extraction call: what the browser and the page
do. launchFail, newContextFail and newPageFail are the messages of
errors thrown by chromium.launch, browser.newContext and
context.newPage — the three acquire steps that run before the try block
(scraper.ts lines 20-24); gotoFail and selectorFail are the messages of
the errors thrown by page.goto and the initial waitForSelector inside
the try (none = the step succeeds); passErr i is the message of an
error thrown by the evaluate step of pass i (none = the pass's DOM read
succeeds); passRows i are the rows rendered when pass i reads the
DOM. -/
structure PageEnv where
  launchFail : Option String
  newContextFail : Option String
  newPageFail : Option String
  gotoFail : Option String
  selectorFail : Option String
  passErr : Nat → Option String
  passRows : Nat → List Row

/-- Output of the scroll-and-capture loop: the counts reported through
onProgress in order, the number of render passes started, and the
overall result (the thrown error's message, or the tracks in insertion
order). -/
structure LoopOut where
  progress : List Nat
  passes : Nat
  result : Except String (List ScrapedTrack)
deriving Repr

/-- The scroll-and-capture loop of fetchPlaylistTracks (scraper.ts
lines 39-104), one recursive step per iteration of the bounded for
loop: i is the iteration index, fuel the remaining iterations,
lastCount and stagnant the two counters. Each pass evaluates the page
(possibly throwing), merges the extracted tracks, reports progress,
then applies the stagnation rule (break when the counter reaches 2).
The scroll/hover interaction and the settle wait have no effect on the
extracted data (their failures are caught and absorbed, scraper.ts
lines 88-101) and are not represented. -/
def scrapeLoop (env : PageEnv) : Nat → Nat → Nat → Nat → TrackMap → LoopOut
  | _, 0, _, _, acc => ⟨[], 0, .ok (mapValues acc)⟩
  | i, fuel + 1, lastCount, stagnant, acc =>
    match env.passErr i with
    | some msg => ⟨[], 1, .error msg⟩
    | none =>
      let currentTracks := (env.passRows i).map rowToTrack
      let acc2 := mergeTracks acc currentTracks
      let n := acc2.length
      if n = lastCount then
        if stagnant + 1 ≥ 2 then ⟨[n], 1, .ok (mapValues acc2)⟩
        else
          let rest := scrapeLoop env (i + 1) fuel n (stagnant + 1) acc2
          ⟨n :: rest.progress, rest.passes + 1, rest.result⟩
      else
        let rest := scrapeLoop env (i + 1) fuel n 0 acc2
        ⟨n :: rest.progress, rest.passes + 1, rest.result⟩

/-- Outcome of one whole fetchPlaylistTracks call: browserAcquired says
whether chromium.launch returned a browser, closeCalls how many times
browser.close ran. -/
structure ScrapeOutcome where
  progress : List Nat
  passes : Nat
  result : Except String (List ScrapedTrack)
  browserAcquired : Bool
  closeCalls : Nat
deriving Repr

/-- fetchPlaylistTracks (scraper.ts lines 17-116): launch the browser,
open a context and a page — these three steps run before the try block,
so an exception in newContext or newPage exits the function with the
launched browser never closed — then navigate, wait for the first row
and run the loop; every exit path of the try (normal return, goto
failure, selector timeout, evaluate error) runs the finally block,
which closes the browser once. -/
def fetchPlaylistTracks (env : PageEnv) : ScrapeOutcome :=
  match env.launchFail with
  | some msg => ⟨[], 0, .error msg, false, 0⟩
  | none =>
    match env.newContextFail with
    | some msg => ⟨[], 0, .error msg, true, 0⟩
    | none =>
      match env.newPageFail with
      | some msg => ⟨[], 0, .error msg, true, 0⟩
      | none =>
        match env.gotoFail with
        | some msg => ⟨[], 0, .error msg, true, 1⟩
        | none =>
          match env.selectorFail with
          | some msg => ⟨[], 0, .error msg, true, 1⟩
          | none =>
            let out := scrapeLoop env 0 15 0 0 []
            ⟨out.progress, out.passes, out.result, true, 1⟩

/-- Decimal digit character. -/
def digitChar (d : Nat) : Char :=
  if d = 0 then '0' else if d = 1 then '1' else if d = 2 then '2'
  else if d = 3 then '3' else if d = 4 then '4' else if d = 5 then '5'
  else if d = 6 then '6' else if d = 7 then '7' else if d = 8 then '8'
  else '9'

/-- Hexadecimal digit character (lowercase letters, as JSON.stringify
renders unicode escapes). -/
def hexChar (d : Nat) : Char :=
  if d = 10 then 'a' else if d = 11 then 'b' else if d = 12 then 'c'
  else if d = 13 then 'd' else if d = 14 then 'e' else if d = 15 then 'f'
  else digitChar d

/-- Decimal digit list of a Nat, most significant first (fuel-indexed
helper; fuel n + 1 always suffices since n / 10 < n for n ≥ 10). -/
def natDigits : Nat → Nat → List Char
  | 0, _ => []
  | fuel + 1, n =>
    if n < 10 then [digitChar n]
    else natDigits fuel (n / 10) ++ [digitChar (n % 10)]

/-- Decimal rendering of a Nat, as JSON.stringify renders a number. -/
def natLit (n : Nat) : String :=
  ⟨natDigits (n + 1) n⟩

/-- JSON string escaping of one character, as JSON.stringify performs
it: the two mandatory escapes, the short control escapes, and the
generic unicode escape for the remaining control characters. -/
def jsonEscapeChar (c : Char) : String :=
  if c = '\"' then "\\\""
  else if c = '\\' then "\\\\"
  else if c = '\n' then "\\n"
  else if c = '\r' then "\\r"
  else if c = '\t' then "\\t"
  else if c = '\x08' then "\\b"
  else if c = '\x0c' then "\\f"
  else if c.toNat < 32 then
    "\\u00" ++ ⟨[hexChar (c.toNat / 16), hexChar (c.toNat % 16)]⟩
  else ⟨[c]⟩

/-- JSON string escaping of a whole string. -/
def jsonEscape (s : String) : String :=
  String.join (s.data.map jsonEscapeChar)

/-- A JSON string literal. -/
def jsonStr (s : String) : String :=
  "\"" ++ jsonEscape s ++ "\""

/-- The typed events the streaming route produces: progress updates
from the onProgress callback, the terminal success text, or the
terminal failure. -/
inductive StreamEvent where
  | progress (count : Nat)
  | text (content : String)
  | failure (details : String)
deriving Repr, DecidableEq

/-- Serialization of one event to the one line the route writes for it
(route.ts lines 75-77: JSON.stringify(data) + a newline), with the
field order of the object literals at route.ts lines 81, 100 and 105. -/
def serializeEvent : StreamEvent → String
  | .progress n => "\x7b\"type\":\"progress\",\"count\":" ++ natLit n ++ "\x7d\n"
  | .text content => "\x7b\"type\":\"text\",\"content\":" ++ jsonStr content ++ "\x7d\n"
  | .failure details =>
      "\x7b\"error\":\"Failed to scrape playlist\",\"details\":" ++ jsonStr details
        ++ "\x7d\n"

/-- route.ts line 86: one text line per track. -/
def trackLine (t : ScrapedTrack) : String :=
  t.artists ++ " - " ++ t.title

/-- route.ts lines 85-87: the joined text blob of the success record. -/
def textList (ts : List ScrapedTrack) : String :=
  String.intercalate "\n" (ts.map trackLine)

/-- Environment of one POST call: the page environment plus the
possible failure of the database update that precedes the success
record (route.ts lines 91-98; its error is caught by the same catch). -/
structure RouteEnv where
  page : PageEnv
  dbFail : Option String

/-- The event sequence of one streaming POST response body (route.ts
lines 71-108): one progress event per onProgress callback in order,
then exactly one terminal event — the text record when scraping and
the database update succeed, otherwise the failure record carrying the
caught error's message as details. -/
def routeEvents (env : RouteEnv) : List StreamEvent :=
  let out := fetchPlaylistTracks env.page
  let progressEvents := out.progress.map StreamEvent.progress
  match out.result with
  | .error msg => progressEvents ++ [.failure msg]
  | .ok ts =>
    match env.dbFail with
    | some msg => progressEvents ++ [.failure msg]
    | none => progressEvents ++ [.text (textList ts)]

/-- The chunk sequence enqueued on the stream controller: each
sendUpdate call enqueues exactly one serialized line (route.ts
lines 75-77), in production order. -/
def routeChunks (env : RouteEnv) : List String :=
  (routeEvents env).map serializeEvent

/-- The spec's Track Candidate (section 3): a title and an ordered
artist list. -/
structure TrackCandidate where
  title : String
  artists : List String
deriving Repr, DecidableEq

/-- Written from the spec's words (section 3, Canonical Key): the
normalized (case-folded) concatenation of the comma-joined artist list,
duplicates removed with first-seen order preserved, and the title, in
the shape "artist a, artist b - song title". Compared below with the
key the code computes. -/
def specCanonicalKey (c : TrackCandidate) : String :=
  strToLower (String.intercalate ", " (dedupKeepFirst c.artists) ++ " - " ++ c.title)

/-- The Track Candidate a row gives rise to: extracted title, extracted
artist list. -/
def rowCandidate (r : Row) : TrackCandidate :=
  ⟨rowTitle r, rowArtists r⟩

/-- A closed no-failure no-rows page environment, used to instantiate
universally quantified theorems. -/
def emptyPage : PageEnv :=
  ⟨none, none, none, none, none, fun _ => none, fun _ => []⟩

/-- A row with a title and one artist. -/
def demoRow : Row :=
  ⟨some ⟨some "T"⟩, none, none, [⟨some "A"⟩], none⟩

/-- A page that renders one row on the first pass and then stays
unchanged. -/
def demoPage : PageEnv :=
  ⟨none, none, none, none, none, fun _ => none,
    fun i => if i = 0 then [demoRow] else []⟩

/-- A successful streaming call against demoPage. -/
def demoRoute : RouteEnv :=
  ⟨demoPage, none⟩

/-- A page whose initial bounded wait for the first row times out. -/
def timeoutRoute : RouteEnv :=
  ⟨⟨none, none, none, none, some "page.waitForSelector: Timeout 45000ms exceeded.",
    fun _ => none, fun _ => []⟩, none⟩

/-- A call in which browser.newContext throws after chromium.launch
succeeded. -/
def acquireFailPage : PageEnv :=
  ⟨none, some "browser.newContext: Browser has been closed", none, none, none,
    fun _ => none, fun _ => []⟩

/-- A concrete track. -/
def demoTrack : ScrapedTrack :=
  ⟨"Song", "Artist"⟩

/-- An accumulator that already holds demoTrack. -/
def demoMap : TrackMap :=
  [(canonicalKey demoTrack, demoTrack)]

/-- A row in which no title selector and no artist selector matched. -/
def emptyRow : Row :=
  ⟨none, none, none, [], none⟩

/-- A row carrying case and whitespace noise around its title and
artist texts. -/
def demoRow2 : Row :=
  ⟨some ⟨some " Song Title "⟩, none, none, [⟨some " Artist A "⟩, ⟨some "artist b"⟩], none⟩

/-- An extraction call in which no step fails: neither the three
acquire steps, nor navigation, nor the initial wait, nor any pass's
evaluate step. -/
def noFatal (env : PageEnv) : Prop :=
  env.launchFail = none ∧ env.newContextFail = none ∧ env.newPageFail = none ∧
    env.gotoFail = none ∧ env.selectorFail = none ∧ ∀ i, env.passErr i = none

/-- A chunk that is exactly one newline-terminated line: its character
list is a newline-free body followed by one final newline. -/
def isSingleLine (c : String) : Prop :=
  ∃ s, c.data = s ++ ['\n'] ∧ '\n' ∉ s

/-- Recognizes the terminal failure event. -/
def isFailureEvent : StreamEvent → Bool
  | .failure _ => true
  | _ => false

/- Merge lemmas. -/

theorem mergeTrack_of_hasKey (m : TrackMap) (t : ScrapedTrack)
    (h : hasKey m (canonicalKey t) = true) : mergeTrack m t = m := by
  simp only [mergeTrack, h, if_true]

theorem hasKey_mergeTrack_mono (m : TrackMap) (t : ScrapedTrack) (k : String)
    (h : hasKey m k = true) : hasKey (mergeTrack m t) k = true := by
  simp only [mergeTrack]
  split
  · exact h
  · simp only [hasKey, List.any_append] at h ⊢
    simp [h]

theorem hasKey_mergeTrack_self (m : TrackMap) (t : ScrapedTrack) :
    hasKey (mergeTrack m t) (canonicalKey t) = true := by
  simp only [mergeTrack]
  split
  · assumption
  · simp [hasKey, List.any_append]

theorem mergeTracks_cons (m : TrackMap) (t : ScrapedTrack) (ts : List ScrapedTrack) :
    mergeTracks m (t :: ts) = mergeTracks (mergeTrack m t) ts := rfl

theorem hasKey_mergeTracks_mono (ts : List ScrapedTrack) (m : TrackMap) (k : String)
    (h : hasKey m k = true) : hasKey (mergeTracks m ts) k = true := by
  induction ts generalizing m with
  | nil => exact h
  | cons t ts ih => exact ih (mergeTrack m t) (hasKey_mergeTrack_mono m t k h)

theorem hasKey_mergeTracks_of_mem (ts : List ScrapedTrack) (m : TrackMap)
    (t : ScrapedTrack) (h : t ∈ ts) :
    hasKey (mergeTracks m ts) (canonicalKey t) = true := by
  induction ts generalizing m with
  | nil => cases h
  | cons a ts ih =>
    rcases List.mem_cons.mp h with rfl | h
    · exact hasKey_mergeTracks_mono ts (mergeTrack m t) (canonicalKey t)
        (hasKey_mergeTrack_self m t)
    · exact ih (mergeTrack m a) h

theorem mergeTracks_eq_of_forall_hasKey (ts : List ScrapedTrack) (m : TrackMap)
    (h : ∀ t ∈ ts, hasKey m (canonicalKey t) = true) : mergeTracks m ts = m := by
  induction ts with
  | nil => rfl
  | cons a ts ih =>
    rw [mergeTracks_cons, mergeTrack_of_hasKey m a (h a (List.mem_cons_self a ts))]
    exact ih (fun t ht => h t (List.mem_cons_of_mem a ht))

theorem mergeTracks_idem (m : TrackMap) (ts : List ScrapedTrack) :
    mergeTracks (mergeTracks m ts) ts = mergeTracks m ts :=
  mergeTracks_eq_of_forall_hasKey ts (mergeTracks m ts)
    (fun t ht => hasKey_mergeTracks_of_mem ts m t ht)

theorem length_mergeTrack_le (m : TrackMap) (t : ScrapedTrack) :
    m.length ≤ (mergeTrack m t).length := by
  simp only [mergeTrack]
  split
  · exact le_refl _
  · simp

theorem length_le_mergeTracks (ts : List ScrapedTrack) (m : TrackMap) :
    m.length ≤ (mergeTracks m ts).length := by
  induction ts generalizing m with
  | nil => exact le_refl _
  | cons a ts ih =>
    exact le_trans (length_mergeTrack_le m a) (ih (mergeTrack m a))

theorem mergeTracks_append_suffix (ts : List ScrapedTrack) (m : TrackMap) :
    ∃ s, mergeTracks m ts = m ++ s := by
  induction ts generalizing m with
  | nil => exact ⟨[], (List.append_nil m).symm⟩
  | cons a ts ih =>
    rcases ih (mergeTrack m a) with ⟨s2, hs2⟩
    rw [mergeTracks_cons]
    by_cases h : hasKey m (canonicalKey a) = true
    · exact ⟨s2, by rw [hs2, mergeTrack_of_hasKey m a h]⟩
    · refine ⟨(canonicalKey a, a) :: s2, ?_⟩
      rw [hs2]
      have ha : mergeTrack m a = m ++ [(canonicalKey a, a)] := by
        simp [mergeTrack, h]
      rw [ha, List.append_assoc]
      rfl

theorem mergeTracks_eq_of_length_eq (ts : List ScrapedTrack) (m : TrackMap)
    (h : (mergeTracks m ts).length = m.length) : mergeTracks m ts = m := by
  rcases mergeTracks_append_suffix ts m with ⟨s, hs⟩
  rw [hs] at h ⊢
  rw [List.length_append] at h
  have hz : s.length = 0 := by omega
  rw [List.length_eq_zero.mp hz, List.append_nil]

/- Loop step lemmas: one per control path of an iteration. -/

theorem scrapeLoop_fatal (env : PageEnv) (i fuel lc st : Nat) (acc : TrackMap)
    (msg : String) (h : env.passErr i = some msg) :
    scrapeLoop env i (fuel + 1) lc st acc = ⟨[], 1, .error msg⟩ := by
  simp only [scrapeLoop, h]

theorem scrapeLoop_grow (env : PageEnv) (i fuel lc st : Nat) (acc : TrackMap)
    (h : env.passErr i = none)
    (hn : (mergeTracks acc ((env.passRows i).map rowToTrack)).length ≠ lc) :
    scrapeLoop env i (fuel + 1) lc st acc =
      ⟨(mergeTracks acc ((env.passRows i).map rowToTrack)).length ::
          (scrapeLoop env (i + 1) fuel
            (mergeTracks acc ((env.passRows i).map rowToTrack)).length 0
            (mergeTracks acc ((env.passRows i).map rowToTrack))).progress,
        (scrapeLoop env (i + 1) fuel
          (mergeTracks acc ((env.passRows i).map rowToTrack)).length 0
          (mergeTracks acc ((env.passRows i).map rowToTrack))).passes + 1,
        (scrapeLoop env (i + 1) fuel
          (mergeTracks acc ((env.passRows i).map rowToTrack)).length 0
          (mergeTracks acc ((env.passRows i).map rowToTrack))).result⟩ := by
  simp only [scrapeLoop, h, hn, if_false]

theorem scrapeLoop_stagnant (env : PageEnv) (i fuel lc : Nat) (acc : TrackMap)
    (h : env.passErr i = none)
    (hn : (mergeTracks acc ((env.passRows i).map rowToTrack)).length = lc) :
    scrapeLoop env i (fuel + 1) lc 0 acc =
      ⟨lc ::
          (scrapeLoop env (i + 1) fuel lc 1
            (mergeTracks acc ((env.passRows i).map rowToTrack))).progress,
        (scrapeLoop env (i + 1) fuel lc 1
          (mergeTracks acc ((env.passRows i).map rowToTrack))).passes + 1,
        (scrapeLoop env (i + 1) fuel lc 1
          (mergeTracks acc ((env.passRows i).map rowToTrack))).result⟩ := by
  simp only [scrapeLoop, h, hn, if_true]
  norm_num

theorem scrapeLoop_break (env : PageEnv) (i fuel lc st : Nat) (acc : TrackMap)
    (h : env.passErr i = none)
    (hn : (mergeTracks acc ((env.passRows i).map rowToTrack)).length = lc)
    (hst : 1 ≤ st) :
    scrapeLoop env i (fuel + 1) lc st acc =
      ⟨[lc], 1, .ok (mapValues (mergeTracks acc ((env.passRows i).map rowToTrack)))⟩ := by
  simp only [scrapeLoop, h, hn, if_true]
  have : st + 1 ≥ 2 := by omega
  simp [this]

/- Global loop lemmas. -/

theorem scrapeLoop_passes_le (env : PageEnv) :
    ∀ fuel i lc st acc, (scrapeLoop env i fuel lc st acc).passes ≤ fuel := by
  intro fuel
  induction fuel with
  | zero => intro i lc st acc; exact Nat.le_refl 0
  | succ fuel ih =>
    intro i lc st acc
    cases h : env.passErr i with
    | some msg =>
      rw [scrapeLoop_fatal env i fuel lc st acc msg h]
      show 1 ≤ fuel + 1
      omega
    | none =>
      by_cases hn : (mergeTracks acc ((env.passRows i).map rowToTrack)).length = lc
      · cases st with
        | zero =>
          rw [scrapeLoop_stagnant env i fuel lc acc h hn]
          exact Nat.succ_le_succ (ih (i + 1) lc 1 _)
        | succ st =>
          rw [scrapeLoop_break env i fuel lc (st + 1) acc h hn (Nat.le_add_left 1 st)]
          show 1 ≤ fuel + 1
          omega
      · rw [scrapeLoop_grow env i fuel lc st acc h hn]
        exact Nat.succ_le_succ (ih (i + 1) _ 0 _)

theorem scrapeLoop_ok_of_noErr (env : PageEnv) (hE : ∀ j, env.passErr j = none) :
    ∀ fuel i lc st acc, ∃ ts, (scrapeLoop env i fuel lc st acc).result = .ok ts := by
  intro fuel
  induction fuel with
  | zero => intro i lc st acc; exact ⟨mapValues acc, rfl⟩
  | succ fuel ih =>
    intro i lc st acc
    by_cases hn : (mergeTracks acc ((env.passRows i).map rowToTrack)).length = lc
    · cases st with
      | zero =>
        rw [scrapeLoop_stagnant env i fuel lc acc (hE i) hn]
        exact ih (i + 1) lc 1 _
      | succ st =>
        rw [scrapeLoop_break env i fuel lc (st + 1) acc (hE i) hn (Nat.le_add_left 1 st)]
        exact ⟨_, rfl⟩
    · rw [scrapeLoop_grow env i fuel lc st acc (hE i) hn]
      exact ih (i + 1) _ 0 _

theorem scrapeLoop_progress_chain (env : PageEnv) :
    ∀ fuel i lc st acc,
      List.Chain' (· ≤ ·) (scrapeLoop env i fuel lc st acc).progress ∧
      ∀ x, (scrapeLoop env i fuel lc st acc).progress.head? = some x →
        acc.length ≤ x := by
  intro fuel
  induction fuel with
  | zero =>
    intro i lc st acc
    exact ⟨List.chain'_nil, fun x hx => by simp [scrapeLoop] at hx⟩
  | succ fuel ih =>
    intro i lc st acc
    cases h : env.passErr i with
    | some msg =>
      rw [scrapeLoop_fatal env i fuel lc st acc msg h]
      exact ⟨List.chain'_nil, fun x hx => by simp at hx⟩
    | none =>
      by_cases hn : (mergeTracks acc ((env.passRows i).map rowToTrack)).length = lc
      · cases st with
        | zero =>
          rw [scrapeLoop_stagnant env i fuel lc acc h hn]
          refine ⟨?_, ?_⟩
          · rw [List.chain'_cons']
            refine ⟨fun y hy => ?_, (ih (i + 1) lc 1 _).1⟩
            have := (ih (i + 1) lc 1 (mergeTracks acc ((env.passRows i).map rowToTrack))).2
              y (by simpa using hy)
            omega
          · intro x hx
            simp only [List.head?_cons, Option.some.injEq] at hx
            subst hx
            calc acc.length ≤ _ := length_le_mergeTracks _ acc
              _ = lc := hn
        | succ st =>
          rw [scrapeLoop_break env i fuel lc (st + 1) acc h hn (Nat.le_add_left 1 st)]
          refine ⟨List.chain'_singleton lc, fun x hx => ?_⟩
          simp only [List.head?_cons, Option.some.injEq] at hx
          subst hx
          calc acc.length ≤ _ := length_le_mergeTracks _ acc
            _ = lc := hn
      · rw [scrapeLoop_grow env i fuel lc st acc h hn]
        refine ⟨?_, ?_⟩
        · rw [List.chain'_cons']
          refine ⟨fun y hy => ?_, (ih (i + 1) _ 0 _).1⟩
          exact (ih (i + 1) _ 0 _).2 y (by simpa using hy)
        · intro x hx
          simp only [List.head?_cons, Option.some.injEq] at hx
          subst hx
          exact length_le_mergeTracks _ acc

theorem scrapeLoop_error_abort (env : PageEnv) :
    ∀ fuel i lc st acc msg,
      (scrapeLoop env i fuel lc st acc).result = .error msg →
      (scrapeLoop env i fuel lc st acc).passes =
        (scrapeLoop env i fuel lc st acc).progress.length + 1 := by
  intro fuel
  induction fuel with
  | zero => intro i lc st acc msg h; exact absurd h (by simp [scrapeLoop])
  | succ fuel ih =>
    intro i lc st acc msg h
    cases he : env.passErr i with
    | some m => rw [scrapeLoop_fatal env i fuel lc st acc m he]; rfl
    | none =>
      by_cases hn : (mergeTracks acc ((env.passRows i).map rowToTrack)).length = lc
      · cases st with
        | zero =>
          rw [scrapeLoop_stagnant env i fuel lc acc he hn] at h ⊢
          simp only [List.length_cons]
          have := ih (i + 1) lc 1 _ msg h
          omega
        | succ st =>
          rw [scrapeLoop_break env i fuel lc (st + 1) acc he hn (Nat.le_add_left 1 st)] at h
          exact absurd h (by simp)
      · rw [scrapeLoop_grow env i fuel lc st acc he hn] at h ⊢
        simp only [List.length_cons]
        have := ih (i + 1) _ 0 _ msg h
        omega

/- Serialization lemmas. -/

theorem strDataAppend (a b : String) : (a ++ b).data = a.data ++ b.data := rfl

theorem data_foldl_append (l : List String) (a : String) :
    (l.foldl (· ++ ·) a).data = a.data ++ (l.map String.data).join := by
  induction l generalizing a with
  | nil => simp
  | cons s l ih =>
    simp only [List.foldl_cons, List.map_cons, List.flatten]
    rw [ih, strDataAppend, List.append_assoc]

theorem data_strJoin (l : List String) :
    (String.join l).data = (l.map String.data).join := by
  have h : String.join l = l.foldl (· ++ ·) "" := rfl
  rw [h, data_foldl_append]
  rfl

theorem digitChar_ne_newline (d : Nat) : digitChar d ≠ '\n' := by
  unfold digitChar
  repeat' split
  all_goals decide

theorem hexChar_ne_newline (d : Nat) : hexChar d ≠ '\n' := by
  unfold hexChar
  repeat' split
  all_goals first
    | decide
    | exact digitChar_ne_newline d

theorem natDigits_no_newline : ∀ fuel n, '\n' ∉ natDigits fuel n := by
  intro fuel
  induction fuel with
  | zero => intro n hmem; cases hmem
  | succ fuel ih =>
    intro n
    simp only [natDigits]
    split
    next hlt =>
      intro hmem
      simp only [List.mem_singleton] at hmem
      exact digitChar_ne_newline n hmem.symm
    next hge =>
      intro hmem
      rcases List.mem_append.mp hmem with h1 | h2
      · exact ih (n / 10) h1
      · simp only [List.mem_singleton] at h2
        exact digitChar_ne_newline _ h2.symm

theorem natLit_no_newline (n : Nat) : '\n' ∉ (natLit n).data :=
  natDigits_no_newline (n + 1) n

theorem jsonEscapeChar_no_newline (c : Char) : '\n' ∉ (jsonEscapeChar c).data := by
  by_cases h1 : c = '\"'
  · subst h1; decide
  by_cases h2 : c = '\\'
  · subst h2; decide
  by_cases h3 : c = '\n'
  · subst h3; decide
  by_cases h4 : c = '\r'
  · subst h4; decide
  by_cases h5 : c = '\t'
  · subst h5; decide
  by_cases h6 : c = '\x08'
  · subst h6; decide
  by_cases h7 : c = '\x0c'
  · subst h7; decide
  by_cases h8 : c.toNat < 32
  · have he : jsonEscapeChar c =
        "\\u00" ++ ⟨[hexChar (c.toNat / 16), hexChar (c.toNat % 16)]⟩ := by
      simp [jsonEscapeChar, h1, h2, h3, h4, h5, h6, h7, h8]
    rw [he, strDataAppend]
    intro hmem
    rcases List.mem_append.mp hmem with h | h
    · revert h; decide
    · simp only [List.mem_cons, List.not_mem_nil, or_false] at h
      rcases h with h | h
      · exact hexChar_ne_newline _ h.symm
      · exact hexChar_ne_newline _ h.symm
  · have he : jsonEscapeChar c = ⟨[c]⟩ := by
      simp [jsonEscapeChar, h1, h2, h3, h4, h5, h6, h7, h8]
    rw [he]
    intro hmem
    exact h3 (List.mem_singleton.mp hmem).symm

theorem jsonEscape_no_newline (s : String) : '\n' ∉ (jsonEscape s).data := by
  unfold jsonEscape
  rw [data_strJoin]
  intro hmem
  rw [List.mem_flatten] at hmem
  rcases hmem with ⟨l, hl, hmem⟩
  rw [List.map_map, List.mem_map] at hl
  rcases hl with ⟨c, _, rfl⟩
  exact jsonEscapeChar_no_newline c hmem

theorem jsonStr_no_newline (s : String) : '\n' ∉ (jsonStr s).data := by
  unfold jsonStr
  rw [strDataAppend, strDataAppend]
  intro hmem
  rcases List.mem_append.mp hmem with h | h
  · rcases List.mem_append.mp h with h | h
    · revert h; decide
    · exact jsonEscape_no_newline s h
  · revert h; decide

theorem serializeEvent_singleLine (e : StreamEvent) :
    isSingleLine (serializeEvent e) := by
  cases e with
  | progress n =>
    refine ⟨"\x7b\"type\":\"progress\",\"count\":".data ++ (natLit n).data ++ ['\x7d'],
      ?_, ?_⟩
    · show ("\x7b\"type\":\"progress\",\"count\":" ++ natLit n ++ "\x7d\n").data = _
      rw [strDataAppend, strDataAppend]
      simp [List.append_assoc]
    · intro hmem
      rcases List.mem_append.mp hmem with h | h
      · rcases List.mem_append.mp h with h | h
        · revert h; decide
        · exact natLit_no_newline n h
      · revert h; decide
  | text content =>
    refine ⟨"\x7b\"type\":\"text\",\"content\":".data ++ (jsonStr content).data
        ++ ['\x7d'], ?_, ?_⟩
    · show ("\x7b\"type\":\"text\",\"content\":" ++ jsonStr content ++ "\x7d\n").data = _
      rw [strDataAppend, strDataAppend]
      simp [List.append_assoc]
    · intro hmem
      rcases List.mem_append.mp hmem with h | h
      · rcases List.mem_append.mp h with h | h
        · revert h; decide
        · exact jsonStr_no_newline content h
      · revert h; decide
  | failure details =>
    refine ⟨"\x7b\"error\":\"Failed to scrape playlist\",\"details\":".data
        ++ (jsonStr details).data ++ ['\x7d'], ?_, ?_⟩
    · show ("\x7b\"error\":\"Failed to scrape playlist\",\"details\":"
          ++ jsonStr details ++ "\x7d\n").data = _
      rw [strDataAppend, strDataAppend]
      simp [List.append_assoc]
    · intro hmem
      rcases List.mem_append.mp hmem with h | h
      · rcases List.mem_append.mp h with h | h
        · revert h; decide
        · exact jsonStr_no_newline details h
      · revert h; decide

theorem countP_failure_progress (l : List Nat) :
    (l.map StreamEvent.progress).countP isFailureEvent = 0 := by
  induction l with
  | nil => rfl
  | cons a l ih => simp [List.countP_cons, ih, isFailureEvent]

theorem fetchPlaylistTracks_ready (env : PageEnv)
    (hl : env.launchFail = none) (hc : env.newContextFail = none)
    (hp : env.newPageFail = none) (hg : env.gotoFail = none)
    (hs : env.selectorFail = none) :
    fetchPlaylistTracks env =
      ⟨(scrapeLoop env 0 15 0 0 []).progress, (scrapeLoop env 0 15 0 0 []).passes,
        (scrapeLoop env 0 15 0 0 []).result, true, 1⟩ := by
  unfold fetchPlaylistTracks
  rw [hl, hc, hp, hg, hs]

/- Claim theorems. -/

/-- C1: the claim fails on the code. chromium.launch, browser.newContext
and context.newPage run before the try block (scraper.ts lines 20-24),
so when newContext throws after launch succeeded, the finally at line
113 never runs: the browser was acquired yet browser.close executed
zero times and the browser is leaked — while a call that reaches the
try block (here: the empty page) releases it exactly once. -/
theorem claim_browser_release_bug :
    (fetchPlaylistTracks acquireFailPage).browserAcquired = true ∧
      (fetchPlaylistTracks acquireFailPage).closeCalls = 0 ∧
      (fetchPlaylistTracks emptyPage).closeCalls = 1 :=
  ⟨rfl, rfl, rfl⟩

/-- C2: the render-and-scroll loop performs at most 15 passes, and in a
fatal-error-free session the call terminates successfully (with an ok
result) whether the cap or the stagnation rule ends the loop. -/
theorem claim_bounded_iteration (env : PageEnv) :
    (fetchPlaylistTracks env).passes ≤ 15 ∧
      (noFatal env → ∃ ts, (fetchPlaylistTracks env).result = .ok ts) := by
  constructor
  · unfold fetchPlaylistTracks
    cases hl : env.launchFail with
    | some msg => exact Nat.zero_le 15
    | none =>
      cases hc : env.newContextFail with
      | some msg => exact Nat.zero_le 15
      | none =>
        cases hp : env.newPageFail with
        | some msg => exact Nat.zero_le 15
        | none =>
          cases hg : env.gotoFail with
          | some msg => exact Nat.zero_le 15
          | none =>
            cases hs : env.selectorFail with
            | some msg => exact Nat.zero_le 15
            | none => exact scrapeLoop_passes_le env 15 0 0 0 []
  · rintro ⟨hl, hc, hp, hg, hs, hpe⟩
    rw [fetchPlaylistTracks_ready env hl hc hp hg hs]
    exact scrapeLoop_ok_of_noErr env hpe 15 0 0 0 []

/-- Witness for C2 at the empty page environment. -/
theorem claim_bounded_iteration_witness :
    (fetchPlaylistTracks emptyPage).passes ≤ 15 ∧
      (fetchPlaylistTracks emptyPage).result = .ok [] := by
  obtain ⟨ts, hts⟩ :=
    (claim_bounded_iteration emptyPage).2 ⟨rfl, rfl, rfl, rfl, rfl, fun _ => rfl⟩
  exact ⟨(claim_bounded_iteration emptyPage).1, rfl⟩

/-- C3: when the unique count after pass i equals the count before it
and the count after pass i + 1 equals it again (two consecutive
stagnant passes, so the stagnation counter reaches the threshold 2),
the loop terminates right at pass i + 1 with a successful result in
first-seen order — consuming exactly 2 of the remaining iterations,
however much of the 15-pass budget was left. -/
theorem claim_stagnation_termination (env : PageEnv) (i fuel : Nat) (acc : TrackMap)
    (hfuel : 2 ≤ fuel)
    (h1 : env.passErr i = none) (h2 : env.passErr (i + 1) = none)
    (hs1 : (mergeTracks acc ((env.passRows i).map rowToTrack)).length = acc.length)
    (hs2 : (mergeTracks (mergeTracks acc ((env.passRows i).map rowToTrack))
        ((env.passRows (i + 1)).map rowToTrack)).length =
        (mergeTracks acc ((env.passRows i).map rowToTrack)).length) :
    scrapeLoop env i fuel acc.length 0 acc =
      ⟨[acc.length, acc.length], 2,
        .ok (mapValues (mergeTracks (mergeTracks acc ((env.passRows i).map rowToTrack))
          ((env.passRows (i + 1)).map rowToTrack)))⟩ := by
  obtain ⟨fuel, rfl⟩ : ∃ f, fuel = f + 2 := ⟨fuel - 2, by omega⟩
  have e1 : mergeTracks acc ((env.passRows i).map rowToTrack) = acc :=
    mergeTracks_eq_of_length_eq _ _ hs1
  rw [e1] at hs2
  rw [show fuel + 2 = (fuel + 1) + 1 from rfl,
    scrapeLoop_stagnant env i (fuel + 1) acc.length acc h1 hs1, e1,
    scrapeLoop_break env (i + 1) fuel acc.length 1 acc h2 hs2 (Nat.le_refl 1)]

/-- Witness for C3: two empty passes against the empty page terminate
the loop after pass 2 with 13 iterations still unused. -/
theorem claim_stagnation_termination_witness :
    2 ≤ 15 ∧ scrapeLoop emptyPage 0 15 0 0 [] = ⟨[0, 0], 2, .ok []⟩ := by
  refine ⟨by omega, ?_⟩
  have h := claim_stagnation_termination emptyPage 0 15 [] (by omega) rfl rfl rfl rfl
  exact h

/-- C4: a fatal error of the extraction call makes the streamed event
sequence end in exactly one Failure record (carrying the fixed message
and the error text as details once serialized), with no Result record
and nothing after it; in the selector-timeout case the Failure record
is the only event ever produced, no Progress was emitted, and the
browser context was still released. -/
theorem claim_fatal_single_failure (env : RouteEnv) :
    (∀ msg, (fetchPlaylistTracks env.page).result = .error msg →
      routeEvents env =
        ((fetchPlaylistTracks env.page).progress.map StreamEvent.progress)
          ++ [.failure msg] ∧
      (routeEvents env).countP isFailureEvent = 1) ∧
    (∀ msg, env.page.launchFail = none → env.page.newContextFail = none →
      env.page.newPageFail = none → env.page.gotoFail = none →
      env.page.selectorFail = some msg →
      routeEvents env = [.failure msg] ∧
      (fetchPlaylistTracks env.page).progress = [] ∧
      (fetchPlaylistTracks env.page).closeCalls = 1) := by
  constructor
  · intro msg h
    have he : routeEvents env =
        ((fetchPlaylistTracks env.page).progress.map StreamEvent.progress)
          ++ [.failure msg] := by
      simp only [routeEvents, h]
    refine ⟨he, ?_⟩
    rw [he, List.countP_append, countP_failure_progress]
    rfl
  · intro msg hl hc hp hg hs
    have hf : fetchPlaylistTracks env.page = ⟨[], 0, .error msg, true, 1⟩ := by
      unfold fetchPlaylistTracks
      rw [hl, hc, hp, hg, hs]
    have he : routeEvents env = [.failure msg] := by
      simp only [routeEvents, hf]
      rfl
    exact ⟨he, by rw [hf], by rw [hf]⟩

/-- Witness for C4 at a selector-timeout environment. -/
theorem claim_fatal_single_failure_witness :
    routeEvents timeoutRoute =
      [.failure "page.waitForSelector: Timeout 45000ms exceeded."] ∧
    (fetchPlaylistTracks timeoutRoute.page).progress = [] ∧
    (fetchPlaylistTracks timeoutRoute.page).closeCalls = 1 ∧
    (routeEvents timeoutRoute).countP isFailureEvent = 1 := by
  obtain ⟨hA, hB⟩ := claim_fatal_single_failure timeoutRoute
  obtain ⟨h1, h2, h3⟩ := hB _ rfl rfl rfl rfl rfl
  exact ⟨h1, h2, h3, (hA _ rfl).2⟩

/-- C5: merging the same candidate sequence twice produces exactly the
map (hence the unique count and first-seen order) of merging it once,
and re-observing an already-known candidate leaves the map untouched. -/
theorem claim_merge_idempotent (m : TrackMap) (ts : List ScrapedTrack)
    (t : ScrapedTrack) :
    mergeTracks (mergeTracks m ts) ts = mergeTracks m ts ∧
      (hasKey m (canonicalKey t) = true → mergeTrack m t = m) :=
  ⟨mergeTracks_idem m ts, fun h => mergeTrack_of_hasKey m t h⟩

/-- Witness for C5 at a one-track accumulator. -/
theorem claim_merge_idempotent_witness :
    mergeTracks (mergeTracks demoMap [demoTrack]) [demoTrack] =
        mergeTracks demoMap [demoTrack] ∧
      mergeTrack demoMap demoTrack = demoMap :=
  ⟨(claim_merge_idempotent demoMap [demoTrack] demoTrack).1,
    (claim_merge_idempotent demoMap [demoTrack] demoTrack).2 (by decide)⟩

/-- C6: across any extraction session the sequence of counts reported
through onProgress (one per successful merge) is monotonically
non-decreasing. -/
theorem claim_progress_monotone (env : PageEnv) :
    List.Chain' (· ≤ ·) (fetchPlaylistTracks env).progress := by
  unfold fetchPlaylistTracks
  cases hl : env.launchFail with
  | some msg => exact List.chain'_nil
  | none =>
    cases hc : env.newContextFail with
    | some msg => exact List.chain'_nil
    | none =>
      cases hp : env.newPageFail with
      | some msg => exact List.chain'_nil
      | none =>
        cases hg : env.gotoFail with
        | some msg => exact List.chain'_nil
        | none =>
          cases hs : env.selectorFail with
          | some msg => exact List.chain'_nil
          | none => exact (scrapeLoop_progress_chain env 15 0 0 0 []).1

/-- C7: the key the code computes for a row's candidate is exactly the
spec's canonical key — the case-folded comma-joined deduplicated
first-seen-order artist list, a separator, and the title — and any two
candidates whose canonical keys coincide (in particular, case and
whitespace variants that normalize identically) collapse to one entry
of the accumulator. -/
theorem claim_canonical_key (r : Row) (m : TrackMap) (t1 t2 : ScrapedTrack)
    (h : canonicalKey t1 = canonicalKey t2) :
    canonicalKey (rowToTrack r) = specCanonicalKey (rowCandidate r) ∧
      mergeTrack (mergeTrack m t1) t2 = mergeTrack m t1 := by
  constructor
  · rfl
  · have hk : hasKey (mergeTrack m t1) (canonicalKey t2) = true := by
      rw [← h]
      exact hasKey_mergeTrack_self m t1
    exact mergeTrack_of_hasKey _ _ hk

/-- Witness for C7: a whitespace-noisy row, and a pair of candidates
differing only in case that collapse to one entry. -/
theorem claim_canonical_key_witness :
    canonicalKey (rowToTrack demoRow2) = specCanonicalKey (rowCandidate demoRow2) ∧
      mergeTrack (mergeTrack [] ⟨"Song Title", "Artist A, artist b"⟩)
          ⟨"SONG TITLE", "artist a, ARTIST B"⟩ =
        mergeTrack [] ⟨"Song Title", "Artist A, artist b"⟩ :=
  claim_canonical_key demoRow2 [] ⟨"Song Title", "Artist A, artist b"⟩
    ⟨"SONG TITLE", "artist a, ARTIST B"⟩ (by decide)

/-- C8: the adapter writes exactly the per-event serialized lines, in
production order, one newline-terminated line per event; the event
sequence is all Progress events followed by one terminal event, and on
success (scrape and database update both succeed) that terminal event
is the single text record carrying the joined track lines. -/
theorem claim_streaming_adapter (env : RouteEnv) :
    routeChunks env = (routeEvents env).map serializeEvent ∧
      (∀ c ∈ routeChunks env, isSingleLine c) ∧
      ∃ t, routeEvents env =
          ((fetchPlaylistTracks env.page).progress.map StreamEvent.progress) ++ [t] ∧
        (∀ n, t ≠ .progress n) ∧
        (∀ ts, (fetchPlaylistTracks env.page).result = .ok ts → env.dbFail = none →
          t = .text (textList ts)) := by
  refine ⟨rfl, ?_, ?_⟩
  · intro c hc
    rcases List.mem_map.mp hc with ⟨e, _, rfl⟩
    exact serializeEvent_singleLine e
  · cases hr : (fetchPlaylistTracks env.page).result with
    | error msg =>
      refine ⟨.failure msg, ?_, fun n h => StreamEvent.noConfusion h, fun ts hts _ => ?_⟩
      · simp only [routeEvents, hr]
      · exact Except.noConfusion hts
    | ok ts0 =>
      cases hdb : env.dbFail with
      | some m =>
        refine ⟨.failure m, ?_, fun n h => StreamEvent.noConfusion h,
          fun ts hts hdbn => ?_⟩
        · simp only [routeEvents, hr, hdb]
        · exact Option.noConfusion hdbn
      | none =>
        refine ⟨.text (textList ts0), ?_, fun n h => StreamEvent.noConfusion h,
          fun ts hts _ => ?_⟩
        · simp only [routeEvents, hr, hdb]
        · injection hts with hts
          rw [hts]

/-- Witness for C8 at a successful one-track scrape: three progress
events then the single terminal text record, each chunk one line. -/
theorem claim_streaming_adapter_witness :
    routeEvents demoRoute =
        [.progress 1, .progress 1, .progress 1, .text "A - T"] ∧
      isSingleLine (serializeEvent (.text "A - T")) := by
  obtain ⟨-, hl, t, h1, -, h3⟩ := claim_streaming_adapter demoRoute
  rw [h3 [⟨"T", "A"⟩] rfl rfl] at h1
  refine ⟨h1.trans rfl, ?_⟩
  refine hl (serializeEvent (.text "A - T")) ?_
  rw [routeChunks, h1]
  exact List.mem_map_of_mem serializeEvent
    (List.mem_append_right _ (List.mem_singleton.mpr rfl))

/-- C9: merging a candidate whose canonical key is already present
leaves the accumulator entirely unchanged — the stored title and artist
strings keep their original casing and the entry keeps its position,
however the later duplicate was cased. -/
theorem claim_duplicate_frame (m : TrackMap) (t : ScrapedTrack)
    (h : hasKey m (canonicalKey t) = true) : mergeTrack m t = m :=
  mergeTrack_of_hasKey m t h

/-- Witness for C9: a duplicate differing from the stored entry in
casing. -/
theorem claim_duplicate_frame_witness :
    hasKey demoMap (canonicalKey ⟨"SONG", "ARTIST"⟩) = true ∧
      mergeTrack demoMap ⟨"SONG", "ARTIST"⟩ = demoMap :=
  ⟨by decide, claim_duplicate_frame demoMap ⟨"SONG", "ARTIST"⟩ (by decide)⟩

/-- C10: a render pass produces exactly one candidate per rendered row;
a row where no title selector of the fallback chain matches yields the
placeholder title, and a row where no artist selector matches yields
the single placeholder artist — extraction is total and never fails a
pass. -/
theorem claim_total_extraction (rs : List Row) (r : Row) :
    (rs.map rowToTrack).length = rs.length ∧
      (r.trackName = none → r.trackLink = none → r.divAuto = none →
        (rowToTrack r).title = "Unknown Title") ∧
      (r.artistElems = [] → r.spanSmall = none →
        (rowToTrack r).artists = "Unknown Artist") := by
  refine ⟨List.length_map rs rowToTrack, ?_, ?_⟩
  · intro h1 h2 h3
    simp [rowToTrack, rowTitle, h1, h2, h3, elemText, jsOrDefault]
  · intro h1 h2
    have ha : rowArtists r = ["Unknown Artist"] := by
      simp [rowArtists, h1, h2, elemText, jsOrDefault]
    simp [rowToTrack, ha, dedupKeepFirst, dedupKeepFirstAux]
    rfl

/-- Witness for C10 at a row in which no selector matched. -/
theorem claim_total_extraction_witness :
    ([emptyRow].map rowToTrack).length = [emptyRow].length ∧
      (rowToTrack emptyRow).title = "Unknown Title" ∧
      (rowToTrack emptyRow).artists = "Unknown Artist" := by
  obtain ⟨h1, h2, h3⟩ := claim_total_extraction [emptyRow] emptyRow
  exact ⟨h1, h2 rfl rfl rfl, h3 rfl rfl⟩

end Mymumi
